import Mathlib

/-!
Verification of the soil-moisture acquisition pipeline
(src/Final Code Version 1/soil_moisture_sensor_two.ino and the
single-sensor sketch in the same file).

The Arduino sketches are shallowly embedded: analog readings become
explicit integer inputs, the global mutable variables become explicit
state records, serial output becomes returned values, and the hardware
pin writes and delays of the power-control path become an explicit event
trace.  C integer division (truncation toward zero) is `Int.tdiv`; the
32-bit `unsigned long` arithmetic of `millis()` is `Nat` modulo `2 ^ 32`.
-/

namespace SoilMoisture

/-! ## Compile-time constants of the dual-sensor sketch -/

/-- Analog pin A0 (value 14 on the Uno). -/
def moistureSensorA0 : Int := 14

/-- Analog pin A1 (value 15 on the Uno). -/
def moistureSensorA1 : Int := 15

/-- Power-control pin for sensor A0 (`-1` would mean always-on). -/
def sensorPowerPinA0 : Int := 7

/-- Power-control pin for sensor A1. -/
def sensorPowerPinA1 : Int := 8

/-- Report interval in milliseconds. -/
def sendInterval : Nat := 5000

/-- Stabilization delay after energizing a sensor, in milliseconds. -/
def powerPrewarmTime : Nat := 100

/-- Calibration: raw value in air (dry), sensor A0. -/
def airValueA0 : Int := 1023

/-- Calibration: raw value in water (wet), sensor A0. -/
def waterValueA0 : Int := 300

/-- Calibration: raw value in air (dry), sensor A1. -/
def airValueA1 : Int := 1023

/-- Calibration: raw value in water (wet), sensor A1. -/
def waterValueA1 : Int := 300

/-- Number of raw samples taken per cycle. -/
def numReadings : Nat := 5

/-- Write index into the circular reading buffers.  In the sketch this is
a file-scope variable initialized to 0 that no statement ever updates, so
it is a constant of the program. -/
def readIndex : Nat := 0

/-- Modulus of the 32-bit `unsigned long` type (2 ^ 32). -/
def M32 : Nat := 4294967296

/-! ## Arduino library primitives -/

/-- Arduino integer `map(x, in_min, in_max, out_min, out_max)`:
`(x - in_min) * (out_max - out_min) / (in_max - in_min) + out_min`, with
C integer division (truncation toward zero). -/
def arduinoMap (x inMin inMax outMin outMax : Int) : Int :=
  Int.tdiv ((x - inMin) * (outMax - outMin)) (inMax - inMin) + outMin

/-- Arduino `constrain(amt, low, high)`. -/
def constrain (amt low high : Int) : Int :=
  if amt < low then low else if high < amt then high else amt

/-- The percentage computation both sketches apply to a value before
reporting it: `map` onto 0..100 between the calibration bounds, then
`constrain` into the range. -/
def mapConstrain (airValue waterValue x : Int) : Int :=
  constrain (arduinoMap x airValue waterValue 0 100) 0 100

/-- Unsigned 32-bit subtraction `a - b`, as computed for
`millis() - lastSendTime` on `unsigned long` operands. -/
def ulSub (a b : Nat) : Nat :=
  (a % M32 + (M32 - b % M32)) % M32

/-! ## Single-sensor sketch: readSoilMoisture -/

/-- The single-sensor sketch's `readSoilMoisture`: store the raw analog
value and its clamped percentage (calibration 1023 dry / 300 wet). -/
def readSoilMoisture (raw : Int) : Int × Int :=
  (raw, mapConstrain 1023 300 raw)

/-! ## Fault detection: checkSensor -/

/-- One call of `checkSensor` given the fresh validation reading and the
channel's sticky error flag.  Result: `(ok, newErrorFlag, errorPrinted)`.
A reading of 0 or 1023 is out of range; the ERROR diagnostic is printed
only when the flag was not already set. -/
def checkSensor (testReading : Int) (errorFlag : Bool) : Bool × Bool × Bool :=
  if testReading = 0 ∨ testReading = 1023 then (false, true, !errorFlag)
  else (true, false, false)

/-- Whether a validation reading is out of range (0 or 1023). -/
def invalidReading (t : Int) : Bool :=
  decide (t = 0 ∨ t = 1023)

/-- Emission trace of repeated `checkSensor` calls: for each reading in
order, whether the ERROR diagnostic was printed on that call. -/
def faultTrace : Bool → List Int → List Bool
  | _, [] => []
  | flag, t :: ts =>
    let c := checkSensor t flag
    c.2.2 :: faultTrace c.2.1 ts

/-- Sticky error flag after a sequence of `checkSensor` calls. -/
def flagAfter : Bool → List Int → Bool
  | flag, [] => flag
  | flag, t :: ts => flagAfter (checkSensor t flag).2.1 ts

/-- Number of contiguous runs of invalid readings that begin strictly
after the first position, given the reading just before the tail. -/
def countRunsAfter : Int → List Int → Nat
  | _, [] => 0
  | prev, t :: ts =>
    (if invalidReading t && !invalidReading prev then 1 else 0) + countRunsAfter t ts

/-- Number of maximal contiguous runs of invalid readings in a sequence. -/
def countRuns : List Int → Nat
  | [] => 0
  | t :: ts => (if invalidReading t then 1 else 0) + countRunsAfter t ts

/-! ## Median filtering: the bubble sort inside readSensor -/

/-- One bubble pass performing at most `k` adjacent compare-and-swap
steps from the left, exactly the inner `for (j ...)` loop of the sketch's
sort with `k = numReadings - i - 1`. -/
def bubblePassBounded : Nat → List Int → List Int
  | 0, l => l
  | _ + 1, [] => []
  | _ + 1, [a] => [a]
  | k + 1, a :: b :: rest =>
    if b < a then b :: bubblePassBounded k (a :: rest)
    else a :: bubblePassBounded k (b :: rest)

/-- The outer `for (i ...)` loop: passes with bounds `k, k-1, ..., 1`. -/
def bubbleSortAux : Nat → List Int → List Int
  | 0, l => l
  | k + 1, l => bubbleSortAux k (bubblePassBounded (k + 1) l)

/-- The sketch's full bubble sort of the temporary sample array. -/
def bubbleSort (l : List Int) : List Int :=
  bubbleSortAux (l.length - 1) l

/-- The sample filter: sort the within-cycle samples ascending and take
the element at position `length / 2` (the median for odd length). -/
def sampleFilter (temps : List Int) : Int :=
  (bubbleSort temps).getD (temps.length / 2) 0

/-! ## Per-channel pipeline state and readSensor -/

/-- The per-channel file-scope variables of the sketch. -/
structure ChannelState where
  readings : List Int
  totalReading : Int
  rawValue : Int
  percentage : Int
  lastGoodReading : Int
  sensorError : Bool
deriving Repr, DecidableEq

/-- Channel state after `setup()`: zero-filled buffer, zero totals,
`lastGoodReading = -1` (absent), error flag clear. -/
def initChannelState : ChannelState where
  readings := List.replicate numReadings 0
  totalReading := 0
  rawValue := 0
  percentage := 0
  lastGoodReading := -1
  sensorError := false

/-- One call of `readSensor` for a channel, given the validation reading
`test` consumed by the inner `checkSensor` call and the `numReadings`
raw samples `temps` taken if validation succeeds.  Result:
`(state, warningPrinted, errorPrinted)` where `warningPrinted` is the
"using last good reading" WARNING line. -/
def readSensor (airValue waterValue : Int) (st : ChannelState)
    (test : Int) (temps : List Int) : ChannelState × Bool × Bool :=
  let c := checkSensor test st.sensorError
  if c.1 then
    let total1 := st.totalReading - st.readings.getD readIndex 0
    let raw := sampleFilter temps
    let readings2 := st.readings.set readIndex raw
    let total2 := total1 + raw
    let average := Int.tdiv total2 (numReadings : Int)
    ({ readings := readings2, totalReading := total2, rawValue := raw,
       percentage := mapConstrain airValue waterValue average,
       lastGoodReading := raw, sensorError := c.2.1 }, false, c.2.2)
  else if st.lastGoodReading ≠ -1 then
    ({ st with rawValue := st.lastGoodReading,
               percentage := mapConstrain airValue waterValue st.lastGoodReading,
               sensorError := c.2.1 }, true, c.2.2)
  else
    ({ st with sensorError := c.2.1 }, false, c.2.2)

/-- Iterate `readSensor` over a list of per-cycle inputs
`(validation reading, samples)`. -/
def runCycles (airValue waterValue : Int) : ChannelState → List (Int × List Int) → ChannelState
  | st, [] => st
  | st, (t, temps) :: rest =>
    runCycles airValue waterValue (readSensor airValue waterValue st t temps).1 rest

/-! ## The two-channel system, scheduler and report line -/

/-- The whole sketch's mutable state: both channel states and the
scheduler's `lastSendTime`. -/
structure SysState where
  a0 : ChannelState
  a1 : ChannelState
  lastSendTime : Nat
deriving Repr, DecidableEq

/-- Environment inputs consumed by one `loop()` iteration: the `millis()`
value and, per channel, the validation reading and the sample batch. -/
structure CycleInput where
  now : Nat
  testA0 : Int
  tempsA0 : List Int
  testA1 : Int
  tempsA1 : List Int
deriving Repr

/-- System state after `setup()`. -/
def initSysState : SysState where
  a0 := initChannelState
  a1 := initChannelState
  lastSendTime := 0

/-- The sketch's `readSensors`: run `readSensor` on both channels. -/
def readSensors (sys : SysState) (inp : CycleInput) : SysState where
  a0 := (readSensor airValueA0 waterValueA0 sys.a0 inp.testA0 inp.tempsA0).1
  a1 := (readSensor airValueA1 waterValueA1 sys.a1 inp.testA1 inp.tempsA1).1
  lastSendTime := sys.lastSendTime

/-- The sketch's `sendData`: one CSV line `timestamp,rawA0,rawA1`,
modelled as the triple of printed values. -/
def sendData (sys : SysState) (timestamp : Nat) : Nat × Int × Int :=
  (timestamp, sys.a0.rawValue, sys.a1.rawValue)

/-- One `loop()` iteration: if `millis() - lastSendTime >= sendInterval`
(32-bit wrapping arithmetic), read both sensors, emit exactly one data
line, and record the send time; otherwise do nothing.  Returns the new
state and the list of data lines emitted by this iteration. -/
def loopStep (sys : SysState) (inp : CycleInput) : SysState × List (Nat × Int × Int) :=
  if sendInterval ≤ ulSub inp.now sys.lastSendTime then
    let sys2 := readSensors sys inp
    ({ sys2 with lastSendTime := inp.now % M32 }, [sendData sys2 (inp.now % M32)])
  else (sys, [])

/-- Iterate `loopStep`, concatenating the emitted data lines. -/
def loopRun : SysState → List CycleInput → SysState × List (Nat × Int × Int)
  | sys, [] => (sys, [])
  | sys, inp :: rest =>
    let s := loopStep sys inp
    let r := loopRun s.1 rest
    (r.1, s.2 ++ r.2)

/-- The scheduler condition of `loop()` in isolation:
`tick(now, last) = (fires, newLast)`. -/
def schedStep (now last : Nat) : Bool × Nat :=
  if sendInterval ≤ ulSub now last then (true, now % M32) else (false, last)

/-- Feed a list of simulated timestamps through the scheduler. -/
def schedRun : Nat → List Nat → List Bool × Nat
  | last, [] => ([], last)
  | last, now :: rest =>
    let s := schedStep now last
    let r := schedRun s.2 rest
    (s.1 :: r.1, r.2)

/-! ## Hardware event traces for the power-control path -/

/-- Hardware-facing actions performed by `checkSensor` and `readSensor`. -/
inductive HWEvent where
  | pinWrite (pin : Int) (level : Bool)
  | wait (ms : Nat)
  | analogRead (pin : Int)
deriving Repr, DecidableEq

/-- Hardware events of one `checkSensor` call: energize and stabilize if
power-controlled, take the validation reading, then de-energize. -/
def checkSensorTrace (sensorPin powerPin : Int) : List HWEvent :=
  (if powerPin ≠ -1 then [.pinWrite powerPin true, .wait powerPrewarmTime] else []) ++
  [.analogRead sensorPin] ++
  (if powerPin ≠ -1 then [.pinWrite powerPin false] else [])

/-- The sampling loop of `readSensor`: `n` times analogRead then a 10 ms
delay. -/
def sampleLoopTrace (sensorPin : Int) : Nat → List HWEvent
  | 0 => []
  | n + 1 => HWEvent.analogRead sensorPin :: HWEvent.wait 10 :: sampleLoopTrace sensorPin n

/-- Hardware events of one `readSensor` call whose validation outcome is
`ok`: energize and stabilize, run `checkSensor`, take the sample batch if
validation succeeded, then de-energize. -/
def readSensorTrace (sensorPin powerPin : Int) (ok : Bool) : List HWEvent :=
  (if powerPin ≠ -1 then [.pinWrite powerPin true, .wait powerPrewarmTime] else []) ++
  checkSensorTrace sensorPin powerPin ++
  (if ok then sampleLoopTrace sensorPin numReadings else []) ++
  (if powerPin ≠ -1 then [.pinWrite powerPin false] else [])

/-- The level of pin `p` at the moment of each analogRead event in the
trace, starting from level `cur`. -/
def readLevels (p : Int) : Bool → List HWEvent → List Bool
  | _, [] => []
  | cur, HWEvent.pinWrite q lv :: rest => readLevels p (if q = p then lv else cur) rest
  | cur, HWEvent.wait _ :: rest => readLevels p cur rest
  | cur, HWEvent.analogRead _ :: rest => cur :: readLevels p cur rest

/-! ## Bubble sort correctness -/

theorem bubblePassBounded_perm (k : Nat) (l : List Int) :
    List.Perm (bubblePassBounded k l) l := by
  induction k generalizing l with
  | zero => simp [bubblePassBounded]
  | succ k ih =>
    match l with
    | [] => simp [bubblePassBounded]
    | [a] => simp [bubblePassBounded]
    | a :: b :: rest =>
      rw [bubblePassBounded]
      by_cases h : b < a
      · rw [if_pos h]
        exact (List.Perm.cons b (ih (a :: rest))).trans (List.Perm.swap a b rest)
      · rw [if_neg h]
        exact List.Perm.cons a (ih (b :: rest))

theorem bubblePassBounded_length (k : Nat) (l : List Int) :
    (bubblePassBounded k l).length = l.length :=
  (bubblePassBounded_perm k l).length_eq

theorem bubblePassBounded_append (k : Nat) (l₁ l₂ : List Int) (h : k + 1 ≤ l₁.length) :
    bubblePassBounded k (l₁ ++ l₂) = bubblePassBounded k l₁ ++ l₂ := by
  induction k generalizing l₁ with
  | zero => simp [bubblePassBounded]
  | succ k ih =>
    match l₁ with
    | [] => simp at h
    | [a] =>
      exfalso
      simp only [List.length_singleton] at h
      omega
    | a :: b :: rest =>
      have hlen : k + 1 ≤ (a :: rest).length ∧ k + 1 ≤ (b :: rest).length := by
        simp only [List.length_cons] at h ⊢
        omega
      simp only [List.cons_append, bubblePassBounded]
      by_cases hab : b < a
      · rw [if_pos hab, if_pos hab]
        exact congrArg (b :: ·) (ih (a :: rest) hlen.1)
      · rw [if_neg hab, if_neg hab]
        exact congrArg (a :: ·) (ih (b :: rest) hlen.2)

theorem bubblePassBounded_last (l : List Int) (a : Int) :
    ∃ l2 M, bubblePassBounded l.length (a :: l) = l2 ++ [M] ∧
      l2.length = l.length ∧ ∀ x ∈ a :: l, x ≤ M := by
  induction l generalizing a with
  | nil =>
    refine ⟨[], a, rfl, rfl, ?_⟩
    intro x hx
    simp only [List.mem_singleton] at hx
    simp [hx]
  | cons b rest ih =>
    simp only [List.length_cons, bubblePassBounded]
    by_cases hab : b < a
    · obtain ⟨l2, M, heq, hlen, hub⟩ := ih a
      refine ⟨b :: l2, M, ?_, by simp [hlen], ?_⟩
      · rw [if_pos hab, heq]
        simp
      · intro x hx
        simp only [List.mem_cons] at hx
        rcases hx with rfl | rfl | hx
        · exact hub x (by simp)
        · exact le_trans (le_of_lt hab) (hub a (by simp))
        · exact hub x (by simp [hx])
    · obtain ⟨l2, M, heq, hlen, hub⟩ := ih b
      refine ⟨a :: l2, M, ?_, by simp [hlen], ?_⟩
      · rw [if_neg hab, heq]
        simp
      · intro x hx
        simp only [List.mem_cons] at hx
        rcases hx with rfl | rfl | hx
        · exact le_trans (not_lt.mp hab) (hub b (by simp))
        · exact hub x (by simp)
        · exact hub x (by simp [hx])

theorem bubbleSortAux_append (k : Nat) (l₁ l₂ : List Int) (h : k + 1 ≤ l₁.length) :
    bubbleSortAux k (l₁ ++ l₂) = bubbleSortAux k l₁ ++ l₂ := by
  induction k generalizing l₁ with
  | zero => simp [bubbleSortAux]
  | succ k ih =>
    simp only [bubbleSortAux]
    rw [bubblePassBounded_append (k + 1) l₁ l₂ h]
    refine ih (bubblePassBounded (k + 1) l₁) ?_
    rw [bubblePassBounded_length]
    omega

theorem bubbleSortAux_perm (k : Nat) (l : List Int) :
    List.Perm (bubbleSortAux k l) l := by
  induction k generalizing l with
  | zero => simp [bubbleSortAux]
  | succ k ih =>
    simp only [bubbleSortAux]
    exact (ih _).trans (bubblePassBounded_perm (k + 1) l)

theorem bubbleSortAux_sorted (k : Nat) (l : List Int) (h : l.length = k + 1) :
    List.Sorted (· ≤ ·) (bubbleSortAux k l) := by
  induction k generalizing l with
  | zero =>
    match l, h with
    | [a], _ => simp [bubbleSortAux]
  | succ k ih =>
    match l with
    | [] => simp at h
    | a :: t =>
      have ht : t.length = k + 1 := by
        simp only [List.length_cons] at h
        omega
      obtain ⟨l2, M, heq, hlen, hub⟩ := bubblePassBounded_last t a
      have hpass : bubblePassBounded (k + 1) (a :: t) = l2 ++ [M] := by
        rw [← ht]
        exact heq
      simp only [bubbleSortAux]
      rw [hpass, bubbleSortAux_append k l2 [M] (by omega)]
      refine List.pairwise_append.mpr ⟨ih l2 (by omega), by simp, ?_⟩
      intro x hx y hy
      simp only [List.mem_singleton] at hy
      rw [hy]
      have hx2 : x ∈ l2 := (bubbleSortAux_perm k l2).mem_iff.mp hx
      have hx3 : x ∈ a :: t := by
        have hmem : x ∈ l2 ++ [M] := List.mem_append.mpr (Or.inl hx2)
        rw [← hpass] at hmem
        exact (bubblePassBounded_perm (k + 1) (a :: t)).mem_iff.mp hmem
      exact hub x hx3

theorem bubbleSort_perm (l : List Int) : List.Perm (bubbleSort l) l :=
  bubbleSortAux_perm _ _

theorem bubbleSort_sorted (l : List Int) : List.Sorted (· ≤ ·) (bubbleSort l) := by
  match l with
  | [] => simp [bubbleSort, bubbleSortAux]
  | a :: t =>
    have hlen : (a :: t).length - 1 = t.length := by simp
    rw [bubbleSort, hlen]
    exact bubbleSortAux_sorted t.length (a :: t) (by simp)

theorem bubbleSort_length (l : List Int) : (bubbleSort l).length = l.length :=
  (bubbleSort_perm l).length_eq

theorem sorted_countP_lt (s : List Int) (hs : List.Sorted (· ≤ ·) s)
    (m : Nat) (hm : m < s.length) (v : Int) (hv : v = s[m]) :
    s.countP (fun x => decide (x < v)) ≤ m := by
  have h1 : (s.drop m).countP (fun x => decide (x < v)) = 0 := by
    rw [List.countP_eq_zero]
    intro a ha
    rw [List.drop_eq_getElem_cons hm] at ha
    have hle : v ≤ a := by
      rcases List.mem_cons.mp ha with rfl | ha2
      · exact le_of_eq hv
      · have hsd : List.Sorted (· ≤ ·) (s.drop m) := List.Pairwise.drop hs
        rw [List.drop_eq_getElem_cons hm] at hsd
        rw [hv]
        exact List.rel_of_sorted_cons hsd a ha2
    simp [not_lt.mpr hle]
  have h2 : (s.take m).countP (fun x => decide (x < v)) ≤ m := by
    refine le_trans (List.countP_le_length _) ?_
    simp [List.length_take]
  calc s.countP (fun x => decide (x < v))
      = (s.take m ++ s.drop m).countP (fun x => decide (x < v)) := by
        rw [List.take_append_drop]
    _ = (s.take m).countP (fun x => decide (x < v)) +
        (s.drop m).countP (fun x => decide (x < v)) := List.countP_append _ _ _
    _ ≤ m := by omega

theorem sorted_countP_gt (s : List Int) (hs : List.Sorted (· ≤ ·) s)
    (m : Nat) (hm : m < s.length) (v : Int) (hv : v = s[m]) :
    s.countP (fun x => decide (v < x)) ≤ s.length - (m + 1) := by
  have hx : ∀ x ∈ s.take (m + 1), x ≤ v := by
    intro x hxm
    obtain ⟨i, hi, hix⟩ := List.mem_iff_getElem.mp hxm
    have hi2 : i < m + 1 := by
      rw [List.length_take] at hi
      omega
    rw [List.getElem_take] at hix
    by_cases him : i = m
    · subst him
      rw [hv, ← hix]
    · have hilt : i < m := by omega
      rw [hv, ← hix]
      exact List.pairwise_iff_getElem.mp hs i m (by omega) hm hilt
  have h1 : (s.take (m + 1)).countP (fun x => decide (v < x)) = 0 := by
    rw [List.countP_eq_zero]
    intro a ha
    simp [not_lt.mpr (hx a ha)]
  have h2 : (s.drop (m + 1)).countP (fun x => decide (v < x)) ≤ s.length - (m + 1) := by
    refine le_trans (List.countP_le_length _) ?_
    simp [List.length_drop]
  calc s.countP (fun x => decide (v < x))
      = (s.take (m + 1) ++ s.drop (m + 1)).countP (fun x => decide (v < x)) := by
        rw [List.take_append_drop]
    _ = (s.take (m + 1)).countP (fun x => decide (v < x)) +
        (s.drop (m + 1)).countP (fun x => decide (v < x)) := List.countP_append _ _ _
    _ ≤ s.length - (m + 1) := by omega

/-- Claim C3: for every odd N and every sequence of N raw integer
readings, the sample filter returns the element at position N/2 of the
ascending-sorted sequence; this value is present in the input sequence,
and at most ⌈N/2⌉-1 inputs are strictly less than it and at most ⌈N/2⌉-1
are strictly greater than it. -/
theorem sampleFilter_median_property (N : Nat) (l : List Int)
    (hlen : l.length = N) (hodd : N % 2 = 1) :
    sampleFilter l ∈ l ∧
    (∀ s : List Int, List.Perm l s → List.Sorted (· ≤ ·) s →
        sampleFilter l = s.getD (N / 2) 0) ∧
    List.countP (fun x => decide (x < sampleFilter l)) l ≤ (N + 1) / 2 - 1 ∧
    List.countP (fun x => decide (sampleFilter l < x)) l ≤ (N + 1) / 2 - 1 := by
  have hN : 1 ≤ N := by omega
  have hblen : (bubbleSort l).length = N := by rw [bubbleSort_length, hlen]
  have hm : N / 2 < (bubbleSort l).length := by rw [hblen]; omega
  have hmed : sampleFilter l = (bubbleSort l)[N / 2] := by
    rw [sampleFilter, hlen, List.getD_eq_getElem _ _ hm]
  refine ⟨?_, ?_, ?_, ?_⟩
  · rw [hmed]
    exact (bubbleSort_perm l).mem_iff.mp (List.getElem_mem hm)
  · intro s hls hs
    have heq : bubbleSort l = s :=
      List.eq_of_perm_of_sorted ((bubbleSort_perm l).trans hls) (bubbleSort_sorted l) hs
    rw [sampleFilter, hlen, heq]
  · have hcnt := (bubbleSort_perm l).countP_eq (fun x => decide (x < sampleFilter l))
    rw [← hcnt]
    have hle := sorted_countP_lt (bubbleSort l) (bubbleSort_sorted l) (N / 2) hm
      (sampleFilter l) hmed
    refine le_trans hle ?_
    omega
  · have hcnt := (bubbleSort_perm l).countP_eq (fun x => decide (sampleFilter l < x))
    rw [← hcnt]
    have hle := sorted_countP_gt (bubbleSort l) (bubbleSort_sorted l) (N / 2) hm
      (sampleFilter l) hmed
    refine le_trans hle ?_
    rw [hblen]
    omega

/-- Witness for C3 at N = 5 with readings [30, 10, 50, 20, 40]: the
filter returns 30, the 3rd smallest, with two inputs below and two
above. -/
theorem sampleFilter_median_property_witness :
    sampleFilter [30, 10, 50, 20, 40] ∈ ([30, 10, 50, 20, 40] : List Int) ∧
    sampleFilter [30, 10, 50, 20, 40] = ([10, 20, 30, 40, 50] : List Int).getD 2 0 ∧
    List.countP (fun x => decide (x < sampleFilter [30, 10, 50, 20, 40]))
      ([30, 10, 50, 20, 40] : List Int) ≤ 2 ∧
    List.countP (fun x => decide (sampleFilter [30, 10, 50, 20, 40] < x))
      ([30, 10, 50, 20, 40] : List Int) ≤ 2 := by
  have h := sampleFilter_median_property 5 [30, 10, 50, 20, 40] (by decide) (by decide)
  exact ⟨h.1, h.2.1 [10, 20, 30, 40, 50] (by decide) (by decide), h.2.2.1, h.2.2.2⟩

/-! ## Fault detector: sticky flag and edge-triggered diagnostics -/

theorem checkSensor_flag (t : Int) (f : Bool) :
    (checkSensor t f).2.1 = invalidReading t := by
  by_cases h : t = 0 ∨ t = 1023 <;> simp [checkSensor, invalidReading, h]

theorem checkSensor_emit (t : Int) (f : Bool) :
    (checkSensor t f).2.2 = (invalidReading t && !f) := by
  by_cases h : t = 0 ∨ t = 1023 <;> simp [checkSensor, invalidReading, h]

theorem checkSensor_ok (t : Int) (f : Bool) :
    (checkSensor t f).1 = !invalidReading t := by
  by_cases h : t = 0 ∨ t = 1023 <;> simp [checkSensor, invalidReading, h]

theorem faultTrace_cons (f : Bool) (t : Int) (ts : List Int) :
    faultTrace f (t :: ts) =
      (invalidReading t && !f) :: faultTrace (invalidReading t) ts := by
  rw [faultTrace]
  rw [checkSensor_flag, checkSensor_emit]

theorem faultTrace_count (prev : Int) (ts : List Int) :
    (faultTrace (invalidReading prev) ts).count true = countRunsAfter prev ts := by
  induction ts generalizing prev with
  | nil => simp [faultTrace, countRunsAfter]
  | cons t ts ih =>
    rw [faultTrace_cons, countRunsAfter, List.count_cons, ih t]
    cases h : (invalidReading t && !invalidReading prev) <;> simp [h] <;> omega

theorem faultTrace_getD (f : Bool) (l : List Int) (i : Nat) :
    (faultTrace f l).getD i false =
      (invalidReading (l.getD i 500) &&
        !(if i = 0 then f else invalidReading (l.getD (i - 1) 500))) := by
  induction l generalizing f i with
  | nil => simp [faultTrace, invalidReading]
  | cons t ts ih =>
    rw [faultTrace_cons]
    match i with
    | 0 => simp
    | 1 =>
      rw [List.getD_cons_succ, List.getD_cons_succ, ih (invalidReading t) 0]
      simp
    | i + 2 =>
      have h1 : i + 2 - 1 = i + 1 := by omega
      have h2 : i + 1 - 1 = i := by omega
      rw [List.getD_cons_succ, List.getD_cons_succ, h1, List.getD_cons_succ,
        ih (invalidReading t) (i + 1), h2]
      simp

theorem flagAfter_append (f : Bool) (l : List Int) (t : Int) :
    flagAfter f (l ++ [t]) = invalidReading t := by
  induction l generalizing f with
  | nil =>
    rw [List.nil_append, flagAfter, flagAfter, checkSensor_flag]
  | cons u us ih =>
    rw [List.cons_append, flagAfter]
    exact ih _

/-- Claim C4: for every channel and every sequence of valid/invalid
validation readings, the stickyError flag transitions false to true
exactly once per contiguous run of invalid readings and resets to false
on the next valid reading, and the out-of-range diagnostic is emitted
exactly once per run, on the flag's false-to-true edge (never on
subsequent invalid readings of the same run).  Stated as: (1) starting
from a clear flag, the number of diagnostics equals the number of
maximal invalid runs; (2) the diagnostic at position i fires exactly
when reading i is invalid and the flag was clear before it, i.e. on the
false-to-true edge; (3) after any reading the flag equals the invalidity
of that reading, so a valid reading always resets it; (4) the spec's
scripted scenario valid, invalid, invalid, valid yields exactly one
diagnostic, on the first invalid reading. -/
theorem stickyError_run_semantics :
    (∀ l : List Int, (faultTrace false l).count true = countRuns l) ∧
    (∀ (f : Bool) (l : List Int) (i : Nat),
      (faultTrace f l).getD i false =
        (invalidReading (l.getD i 500) &&
          !(if i = 0 then f else invalidReading (l.getD (i - 1) 500)))) ∧
    (∀ (f : Bool) (l : List Int) (t : Int),
      flagAfter f (l ++ [t]) = invalidReading t) ∧
    faultTrace false [500, 0, 0, 500] = [false, true, false, false] := by
  refine ⟨?_, faultTrace_getD, flagAfter_append, by decide⟩
  intro l
  match l with
  | [] => simp [faultTrace, countRuns]
  | t :: ts =>
    rw [faultTrace_cons, countRuns, List.count_cons, faultTrace_count t ts]
    cases h : invalidReading t <;> simp [h] <;> omega

/-! ## readSensor branch lemmas -/

theorem readSensor_valid (airValue waterValue : Int) (st : ChannelState)
    (test : Int) (temps : List Int) (h : ¬(test = 0 ∨ test = 1023)) :
    readSensor airValue waterValue st test temps =
      ({ readings := st.readings.set readIndex (sampleFilter temps),
         totalReading := st.totalReading - st.readings.getD readIndex 0 + sampleFilter temps,
         rawValue := sampleFilter temps,
         percentage := mapConstrain airValue waterValue
           (Int.tdiv (st.totalReading - st.readings.getD readIndex 0 + sampleFilter temps)
             (numReadings : Int)),
         lastGoodReading := sampleFilter temps, sensorError := false }, false, false) := by
  rw [readSensor]
  have hc : checkSensor test st.sensorError = (true, false, false) := by
    rw [checkSensor, if_neg h]
  rw [hc]
  simp

theorem readSensor_fail_some (airValue waterValue : Int) (st : ChannelState)
    (test : Int) (temps : List Int) (h : test = 0 ∨ test = 1023)
    (hlg : st.lastGoodReading ≠ -1) :
    readSensor airValue waterValue st test temps =
      ({ st with rawValue := st.lastGoodReading,
                 percentage := mapConstrain airValue waterValue st.lastGoodReading,
                 sensorError := true }, true, !st.sensorError) := by
  rw [readSensor]
  have hc : checkSensor test st.sensorError = (false, true, !st.sensorError) := by
    rw [checkSensor, if_pos h]
  rw [hc]
  simp [hlg]

theorem readSensor_fail_none (airValue waterValue : Int) (st : ChannelState)
    (test : Int) (temps : List Int) (h : test = 0 ∨ test = 1023)
    (hlg : st.lastGoodReading = -1) :
    readSensor airValue waterValue st test temps =
      ({ st with sensorError := true }, false, !st.sensorError) := by
  rw [readSensor]
  have hc : checkSensor test st.sensorError = (false, true, !st.sensorError) := by
    rw [checkSensor, if_pos h]
  rw [hc]
  simp [hlg]

theorem runCycles_lastGood_none (inputs : List (Int × List Int)) (st : ChannelState)
    (hst : st.lastGoodReading = -1) (h : ∀ p ∈ inputs, p.1 = 0 ∨ p.1 = 1023) :
    (runCycles 1023 300 st inputs).lastGoodReading = -1 := by
  induction inputs generalizing st with
  | nil => rw [runCycles]; exact hst
  | cons p rest ih =>
    obtain ⟨t, temps⟩ := p
    rw [runCycles, readSensor_fail_none 1023 300 st t temps (h (t, temps) (by simp)) hst]
    exact ih _ hst (fun q hq => h q (by simp [hq]))

/-- Claim C5: for every cycle in which the validation sample fails the
fault check: no filtering is attempted (the sample window and running
sum are left unchanged); if a last-good raw value is present, the
cycle's output raw value equals that cached value, the percentage is
recomputed from it and clamped, and a "using last good reading" warning
is emitted; if no last-good value exists (e.g. the channel has always
read the rail extreme 1023), no usable reading is produced (raw value
and percentage are left untouched and no warning fires) and the
last-good value remains absent after every cycle. -/
theorem validation_failure_fallback :
    (∀ (st : ChannelState) (test : Int) (temps : List Int),
      test = 0 ∨ test = 1023 →
        ((readSensor 1023 300 st test temps).1.readings = st.readings ∧
         (readSensor 1023 300 st test temps).1.totalReading = st.totalReading) ∧
        (st.lastGoodReading ≠ -1 →
          (readSensor 1023 300 st test temps).1.rawValue = st.lastGoodReading ∧
          (readSensor 1023 300 st test temps).1.percentage =
            mapConstrain 1023 300 st.lastGoodReading ∧
          (readSensor 1023 300 st test temps).2.1 = true) ∧
        (st.lastGoodReading = -1 →
          (readSensor 1023 300 st test temps).1.rawValue = st.rawValue ∧
          (readSensor 1023 300 st test temps).1.percentage = st.percentage ∧
          (readSensor 1023 300 st test temps).1.lastGoodReading = -1 ∧
          (readSensor 1023 300 st test temps).2.1 = false)) ∧
    (∀ inputs : List (Int × List Int),
      (∀ p ∈ inputs, p.1 = 0 ∨ p.1 = 1023) →
        (runCycles 1023 300 initChannelState inputs).lastGoodReading = -1) := by
  refine ⟨?_, fun inputs h => runCycles_lastGood_none inputs initChannelState rfl h⟩
  intro st test temps hfail
  by_cases hlg : st.lastGoodReading = -1
  · rw [readSensor_fail_none 1023 300 st test temps hfail hlg]
    exact ⟨⟨rfl, rfl⟩, fun hc => absurd hlg hc, fun _ => ⟨rfl, rfl, hlg, rfl⟩⟩
  · rw [readSensor_fail_some 1023 300 st test temps hfail hlg]
    exact ⟨⟨rfl, rfl⟩, fun _ => ⟨rfl, rfl, rfl⟩, fun hc => absurd hc hlg⟩

/-- Witness for C5: a failing validation reading (1023) with cached
last-good value 600 reproduces raw value 600, percentage 58 and the
warning; from the initial state (no last-good value) one failing cycle
leaves the last-good value absent. -/
theorem validation_failure_fallback_witness :
    (readSensor 1023 300 { initChannelState with lastGoodReading := 600 } 1023
      [1, 2, 3, 4, 5]).1.rawValue = 600 ∧
    (readSensor 1023 300 { initChannelState with lastGoodReading := 600 } 1023
      [1, 2, 3, 4, 5]).1.percentage = 58 ∧
    (readSensor 1023 300 { initChannelState with lastGoodReading := 600 } 1023
      [1, 2, 3, 4, 5]).2.1 = true ∧
    (runCycles 1023 300 initChannelState [(1023, [1, 2, 3, 4, 5])]).lastGoodReading = -1 := by
  have h := (validation_failure_fallback.1
    { initChannelState with lastGoodReading := 600 } 1023 [1, 2, 3, 4, 5]
    (Or.inr rfl)).2.1 (by decide)
  refine ⟨h.1, ?_, h.2.2, validation_failure_fallback.2 [(1023, [1, 2, 3, 4, 5])] (by decide)⟩
  rw [h.2.1]
  decide

/-! ## Percentage range -/

theorem mapConstrain_range (airValue waterValue x : Int) :
    0 ≤ mapConstrain airValue waterValue x ∧ mapConstrain airValue waterValue x ≤ 100 := by
  rw [mapConstrain, constrain]
  split_ifs <;> omega

theorem mapConstrain_high (x : Int) (hx : 1023 < x) : mapConstrain 1023 300 x = 0 := by
  have harith : arduinoMap x 1023 300 0 100 = Int.tdiv ((x - 1023) * 100) (-723) := by
    rw [arduinoMap]
    norm_num
  have hp : arduinoMap x 1023 300 0 100 ≤ 0 := by
    rw [harith, Int.tdiv_neg]
    have h1 : (0 : Int) ≤ (x - 1023) * 100 := by
      have : (0 : Int) ≤ x - 1023 := by omega
      positivity
    have := Int.tdiv_nonneg h1 (by omega : (0 : Int) ≤ 723)
    omega
  rw [mapConstrain, constrain]
  split_ifs <;> omega

theorem mapConstrain_low (x : Int) (hx : x < 300) : mapConstrain 1023 300 x = 100 := by
  have harith : arduinoMap x 1023 300 0 100 = Int.tdiv ((x - 1023) * 100) (-723) := by
    rw [arduinoMap]
    norm_num
  have hp : 100 ≤ arduinoMap x 1023 300 0 100 := by
    rw [harith, Int.tdiv_neg]
    have hflip : Int.tdiv ((x - 1023) * 100) 723 = -Int.tdiv ((1023 - x) * 100) 723 := by
      rw [← Int.neg_tdiv]
      congr 1
      ring
    rw [hflip, neg_neg]
    have h1 : (72400 : Int) ≤ (1023 - x) * 100 := by nlinarith
    rw [Int.tdiv_eq_ediv (by omega) (by omega)]
    rw [Int.le_ediv_iff_mul_le (by omega : (0 : Int) < 723)]
    omega
  rw [mapConstrain, constrain]
  split_ifs <;> omega

theorem runCycles_percentage_range (inputs : List (Int × List Int)) (st : ChannelState)
    (h0 : 0 ≤ st.percentage) (h1 : st.percentage ≤ 100) :
    0 ≤ (runCycles 1023 300 st inputs).percentage ∧
    (runCycles 1023 300 st inputs).percentage ≤ 100 := by
  induction inputs generalizing st with
  | nil => rw [runCycles]; exact ⟨h0, h1⟩
  | cons p rest ih =>
    obtain ⟨t, temps⟩ := p
    rw [runCycles]
    by_cases hv : t = 0 ∨ t = 1023
    · by_cases hlg : st.lastGoodReading = -1
      · rw [readSensor_fail_none 1023 300 st t temps hv hlg]
        exact ih _ h0 h1
      · rw [readSensor_fail_some 1023 300 st t temps hv hlg]
        exact ih _ (mapConstrain_range 1023 300 st.lastGoodReading).1
          (mapConstrain_range 1023 300 st.lastGoodReading).2
    · rw [readSensor_valid 1023 300 st t temps hv]
      exact ih _ (mapConstrain_range 1023 300 _).1 (mapConstrain_range 1023 300 _).2

/-- Claim C7: for every raw input value, the computed percentage lies in
[0,100] after every cycle: an input equal to dryValue (1023) maps to
percentage 0, an input equal to wetValue (300) maps to 100, and inputs
beyond either calibration bound clamp to 0 or 100 respectively, never
producing a value outside [0,100]; the single-sensor sketch's
`readSoilMoisture` applies the same mapping, and the channel pipeline's
stored percentage stays in [0,100] after any number of cycles. -/
theorem percentage_clamped_range :
    (∀ x : Int, 0 ≤ mapConstrain 1023 300 x ∧ mapConstrain 1023 300 x ≤ 100) ∧
    mapConstrain 1023 300 1023 = 0 ∧
    mapConstrain 1023 300 300 = 100 ∧
    (∀ x : Int, 1023 < x → mapConstrain 1023 300 x = 0) ∧
    (∀ x : Int, x < 300 → mapConstrain 1023 300 x = 100) ∧
    (∀ x : Int, (readSoilMoisture x).2 = mapConstrain 1023 300 x) ∧
    (∀ inputs : List (Int × List Int),
      0 ≤ (runCycles 1023 300 initChannelState inputs).percentage ∧
      (runCycles 1023 300 initChannelState inputs).percentage ≤ 100) :=
  ⟨fun x => mapConstrain_range 1023 300 x, by decide, by decide,
    mapConstrain_high, mapConstrain_low, fun x => rfl,
    fun inputs => runCycles_percentage_range inputs initChannelState (by decide) (by decide)⟩

/-- Witness for C7: an input above the dry bound clamps to 0 and one
below the wet bound clamps to 100. -/
theorem percentage_clamped_range_witness :
    mapConstrain 1023 300 1100 = 0 ∧ mapConstrain 1023 300 200 = 100 :=
  ⟨percentage_clamped_range.2.2.2.1 1100 (by decide),
   percentage_clamped_range.2.2.2.2.1 200 (by decide)⟩

/-! ## Rolling-average window: the stuck write index -/

/-- Claim C1 concerns the rolling-average window update.  The sketch
declares `readIndex` as the circular write index but never increments
it, so slot 0 is overwritten every cycle: after five valid cycles whose
median sample is 600 each time, the running total is 600 (the last
sample alone), the other four slots still hold their initial zeros, and
the total differs from the sum 3000 of the last five samples fed, so
the documented rolling-sum invariant fails. -/
theorem rollingAverage_window_stuck_eval :
    (runCycles 1023 300 initChannelState
      (List.replicate 5 (600, List.replicate 5 600))).totalReading = 600 ∧
    (runCycles 1023 300 initChannelState
      (List.replicate 5 (600, List.replicate 5 600))).readings = [600, 0, 0, 0, 0] ∧
    (runCycles 1023 300 initChannelState
      (List.replicate 5 (600, List.replicate 5 600))).totalReading ≠
      (List.replicate 5 (600 : Int)).sum := by
  decide

/-- Claim C2 expects percentage 58 for a steady raw value of 600 with
calibration 1023 dry / 300 wet.  Applying the calibration map directly
to 600 does give 58, but the pipeline maps the rolling average, and
because `readIndex` never advances the average is stuck at 600/5 = 120,
whose mapped value clamps to 100: the reported percentage is 100 on
every cycle, never 58. -/
theorem steady600_percentage_eval :
    mapConstrain 1023 300 600 = 58 ∧
    (runCycles 1023 300 initChannelState
      (List.replicate 1 (600, List.replicate 5 600))).percentage = 100 ∧
    (runCycles 1023 300 initChannelState
      (List.replicate 10 (600, List.replicate 5 600))).percentage = 100 := by
  decide

/-! ## Scheduler -/

/-- Claim C6: for every now value, the scheduler fires if and only if the
fixed-width unsigned difference now - lastFireTime is at least the
configured interval (5000), and on firing it records lastFireTime = now;
with simulated timestamps 0, 4999, 5000, 9999, 10000 it fires only at
5000 and 10000, and it still fires correctly when now wraps past the
maximum representable value back to a small number (here: last fire at
2^32 - 1000, now 4000, elapsed 5000, fires; now 3000, elapsed 4000,
does not fire). -/
theorem scheduler_interval_semantics :
    (∀ now last : Nat, (schedStep now last).1 = true ↔ sendInterval ≤ ulSub now last) ∧
    (∀ now last : Nat, sendInterval ≤ ulSub now last → (schedStep now last).2 = now % M32) ∧
    (schedRun 0 [0, 4999, 5000, 9999, 10000]).1 = [false, false, true, false, true] ∧
    schedStep 4000 (M32 - 1000) = (true, 4000) ∧
    schedStep 3000 (M32 - 1000) = (false, M32 - 1000) := by
  refine ⟨?_, ?_, by decide, by decide, by decide⟩
  · intro now last
    rw [schedStep]
    by_cases h : sendInterval ≤ ulSub now last <;> simp [h]
  · intro now last h
    rw [schedStep, if_pos h]

/-- Witness for C6 at now = 5000, last = 0: the scheduler fires and
records 5000. -/
theorem scheduler_interval_semantics_witness :
    (schedStep 5000 0).1 = true ∧ (schedStep 5000 0).2 = 5000 % M32 :=
  ⟨(scheduler_interval_semantics.1 5000 0).mpr (by decide),
   scheduler_interval_semantics.2.1 5000 0 (by decide)⟩

/-! ## Power control during sampling -/

/-- Claim C8 asserts the power-control output stays energized throughout
the acquisition of the N filtered samples, de-energizing only after
sampling completes.  In the code, `readSensor` energizes the pin, but
then calls `checkSensor`, which de-energizes it before returning, so on
a successful validation the five median-filter samples are all read with
the power output low: the level at the six analogRead events of a
successful cycle on channel A0 (power pin 7) is high for the validation
read and low for all five sample reads, and the de-energize write is
already present inside the `checkSensor` portion of the trace. -/
theorem power_deenergized_before_sampling_eval :
    readLevels sensorPowerPinA0 false
      (readSensorTrace moistureSensorA0 sensorPowerPinA0 true) =
      [true, false, false, false, false, false] ∧
    HWEvent.pinWrite sensorPowerPinA0 false ∈
      checkSensorTrace moistureSensorA0 sensorPowerPinA0 := by
  decide

/-! ## Report emission -/

/-- Claim C9: every fired cycle emits exactly one data line, in the
fixed field order timestamp, rawValue of channel 0, rawValue of
channel 1; the values transmitted are the channels' raw values, not the
computed percentages, and no lines are batched or buffered across
cycles (a non-fired iteration emits nothing, a fired one exactly one
line).  The concrete cycle shows the line carries the raw value 600
while the computed percentage of the same cycle is 100. -/
theorem sendData_single_line :
    (∀ (sys : SysState) (inp : CycleInput),
      sendInterval ≤ ulSub inp.now sys.lastSendTime →
        (loopStep sys inp).2 =
          [(inp.now % M32, (readSensors sys inp).a0.rawValue,
            (readSensors sys inp).a1.rawValue)]) ∧
    (∀ (sys : SysState) (inp : CycleInput),
      ¬sendInterval ≤ ulSub inp.now sys.lastSendTime → (loopStep sys inp).2 = []) ∧
    (∀ (sys : SysState) (inp : CycleInput), (loopStep sys inp).2.length ≤ 1) ∧
    (loopStep initSysState
      ⟨5000, 600, [600, 600, 600, 600, 600], 600, [600, 600, 600, 600, 600]⟩).2 =
      [(5000, 600, 600)] ∧
    (loopStep initSysState
      ⟨5000, 600, [600, 600, 600, 600, 600], 600, [600, 600, 600, 600, 600]⟩).1.a0.percentage
      = 100 := by
  refine ⟨?_, ?_, ?_, by decide, by decide⟩
  · intro sys inp h
    rw [loopStep, if_pos h]
    rfl
  · intro sys inp h
    rw [loopStep, if_neg h]
  · intro sys inp
    rw [loopStep]
    by_cases h : sendInterval ≤ ulSub inp.now sys.lastSendTime <;> simp [h]

/-- Witness for C9: from the initial state, a firing iteration emits the
single line built from the updated raw values. -/
theorem sendData_single_line_witness :
    (loopStep initSysState ⟨5000, 1023, [], 1023, []⟩).2 =
      [(5000 % M32,
        (readSensors initSysState ⟨5000, 1023, [], 1023, []⟩).a0.rawValue,
        (readSensors initSysState ⟨5000, 1023, [], 1023, []⟩).a1.rawValue)] :=
  sendData_single_line.1 initSysState ⟨5000, 1023, [], 1023, []⟩ (by decide)

/-! ## Channel that never produced a valid reading -/

theorem loopStep_a0_invalid (sys : SysState) (inp : CycleInput)
    (hraw : sys.a0.rawValue = 0) (hlg : sys.a0.lastGoodReading = -1)
    (ht : inp.testA0 = 0 ∨ inp.testA0 = 1023) :
    (loopStep sys inp).1.a0.rawValue = 0 ∧
    (loopStep sys inp).1.a0.lastGoodReading = -1 ∧
    ∀ ln ∈ (loopStep sys inp).2, ln.2.1 = 0 := by
  rw [loopStep]
  by_cases hfire : sendInterval ≤ ulSub inp.now sys.lastSendTime
  · rw [if_pos hfire]
    have hfail := readSensor_fail_none airValueA0 waterValueA0 sys.a0 inp.testA0 inp.tempsA0
      ht hlg
    simp only [readSensors, hfail, sendData]
    refine ⟨hraw, hlg, ?_⟩
    intro ln hln
    simp only [List.mem_singleton] at hln
    rw [hln]
    exact hraw
  · rw [if_neg hfire]
    exact ⟨hraw, hlg, by simp⟩

theorem loopRun_a0_invalid (inputs : List CycleInput) (sys : SysState)
    (hraw : sys.a0.rawValue = 0) (hlg : sys.a0.lastGoodReading = -1)
    (h : ∀ inp ∈ inputs, inp.testA0 = 0 ∨ inp.testA0 = 1023) :
    (loopRun sys inputs).1.a0.rawValue = 0 ∧
    (loopRun sys inputs).1.a0.lastGoodReading = -1 ∧
    ∀ ln ∈ (loopRun sys inputs).2, ln.2.1 = 0 := by
  induction inputs generalizing sys with
  | nil =>
    rw [loopRun]
    exact ⟨hraw, hlg, by simp⟩
  | cons inp rest ih =>
    rw [loopRun]
    have hstep := loopStep_a0_invalid sys inp hraw hlg (h inp (by simp))
    have hih := ih (loopStep sys inp).1 hstep.1 hstep.2.1 (fun q hq => h q (by simp [hq]))
    refine ⟨hih.1, hih.2.1, ?_⟩
    intro ln hln
    simp only [List.mem_append] at hln
    rcases hln with hln | hln
    · exact hstep.2.2 ln hln
    · exact hih.2.2 ln hln

/-- Claim C10: if a channel's validation sample fails in every cycle
since startup (so no last-good value was ever cached), the per-cycle
data line is still emitted and reports that channel's rawValue variable
unchanged from its initial value 0: the collector receives 0 as the raw
value for a channel that has never produced a valid reading, with no
sentinel, suppression, or omission (concretely, three fired cycles with
both validation readings at the rail extreme 1023 emit three lines, all
reporting 0). -/
theorem never_valid_channel_reports_zero :
    (∀ inputs : List CycleInput,
      (∀ inp ∈ inputs, inp.testA0 = 0 ∨ inp.testA0 = 1023) →
        (loopRun initSysState inputs).1.a0.rawValue = 0 ∧
        (loopRun initSysState inputs).1.a0.lastGoodReading = -1 ∧
        ∀ ln ∈ (loopRun initSysState inputs).2, ln.2.1 = 0) ∧
    (loopRun initSysState
      [⟨5000, 1023, [], 1023, []⟩, ⟨10000, 1023, [], 1023, []⟩,
       ⟨15000, 1023, [], 1023, []⟩]).2 =
      [(5000, 0, 0), (10000, 0, 0), (15000, 0, 0)] :=
  ⟨fun inputs h => loopRun_a0_invalid inputs initSysState rfl rfl h, by decide⟩

/-- Witness for C10: three always-invalid cycles leave rawValue at 0,
the last-good value absent, and every emitted line reporting 0. -/
theorem never_valid_channel_reports_zero_witness :
    (loopRun initSysState
      [⟨5000, 1023, [], 1023, []⟩, ⟨10000, 1023, [], 1023, []⟩,
       ⟨15000, 1023, [], 1023, []⟩]).1.a0.rawValue = 0 ∧
    (loopRun initSysState
      [⟨5000, 1023, [], 1023, []⟩, ⟨10000, 1023, [], 1023, []⟩,
       ⟨15000, 1023, [], 1023, []⟩]).1.a0.lastGoodReading = -1 :=
  have h := never_valid_channel_reports_zero.1
    [⟨5000, 1023, [], 1023, []⟩, ⟨10000, 1023, [], 1023, []⟩, ⟨15000, 1023, [], 1023, []⟩]
    (by decide)
  ⟨h.1, h.2.1⟩

end SoilMoisture
